import Mathlib

/-!
Verification development for the wikipedia-tool-calling-rag repository
(src/index.ts). The TypeScript program is a command-line RAG loop:
a LangGraph pipeline search -> fetchWiki -> retrieve -> generate driven
by a stdin session loop, with a process-wide embedding cache keyed by
the fetched content string.

The external collaborators (wikipedia search and page text, the OpenAI
chat and embedding endpoints, the vector-store similarity search) are
modelled as an environment of fallible functions (Except-valued), since
the program treats them as opaque capabilities. Machine-level details
of the libraries (console colouring, template interpolation) carry no
state and are not modelled; prompts are kept structurally.
-/

namespace WikiRag

/-- Errors thrown during a turn: a failing external service call, or a
JavaScript runtime TypeError (reading or mapping over undefined). -/
inductive Err where
  | service (msg : String)
  | typeErr (msg : String)
  deriving DecidableEq, Repr

/-- A langchain Document as used by the program: only its pageContent
field is ever read (src/index.ts line 169). -/
structure Document where
  pageContent : String
  deriving DecidableEq, Repr

/-- A MemoryVectorStore: the in-memory index built from the split
documents of one content string (src/index.ts lines 234-251). Its
construction and its similarity search are delegated to the external
embedding capability, so here it is a value produced by the
environment; docs records the documents it holds. -/
structure Store where
  docs : List Document
  deriving DecidableEq, Repr

/-- One entry of wiki.search(...).results: only the title field is read
(src/index.ts line 259). -/
structure SearchResult where
  title : String
  deriving DecidableEq, Repr

/-- A tool call on the model response (response.tool_calls): a name and
the searchTerm argument of the wikipedia schema (src/index.ts
lines 48-50 and 112-120). -/
structure ToolCall where
  name : String
  searchTerm : String
  deriving DecidableEq, Repr

/-- A chat-model response: natural-language content plus the list of
structured tool calls (an absent tool_calls array is the empty list,
matching the optional chaining at src/index.ts line 112). -/
structure LlmResponse where
  content : String
  tool_calls : List ToolCall
  deriving DecidableEq, Repr

/-- The three prompts the program builds (src/index.ts lines 14-44),
kept structurally: the starting prompt over the question, the follow-up
prompt over question, previous question, previous context and previous
answer, and the generation prompt over question and joined context. -/
inductive Prompt where
  | starting (question : String)
  | followUp (question : String) (previousQuestion : Option String)
      (context : Option (List Document)) (answer : Option String)
  | generate (question : String) (context : String)
  deriving DecidableEq, Repr

/-- The external capabilities consumed by the program, each fallible:
llm is ChatOpenAI invoke, search is wiki.search (returning the ranked
result list), pageContent is wiki.page(title).content(),
createEmbeddings covers splitting plus OpenAIEmbeddings plus
MemoryVectorStore.addDocuments (src/index.ts lines 234-251), and
similaritySearch is vectorStore.similaritySearch. -/
structure Env where
  llm : Prompt → Except Err LlmResponse
  search : String → Except Err (List SearchResult)
  pageContent : String → Except Err String
  createEmbeddings : String → Except Err Store
  similaritySearch : Store → String → Except Err (List Document)

/-- The graph state channels (src/index.ts lines 86-93). question is
assigned from the input at every turn entry before any step reads it;
the other channels start undefined, modelled as none. -/
structure State where
  question : String
  context : Option (List Document)
  searchTerm : Option String
  searchContent : Option String
  answer : Option String
  previousQuestion : Option String
  deriving DecidableEq, Repr

/-- The state at session start: every channel undefined. -/
def initState : State :=
  { question := ""
    context := none
    searchTerm := none
    searchContent := none
    answer := none
    previousQuestion := none }

/-- JavaScript truthiness of an optional string: undefined and the
empty string are falsy, every other string is truthy. -/
def strTruthy : Option String → Bool
  | none => false
  | some s => !(s == "")

/-- JavaScript truthiness of the context channel: an array is truthy
whenever it is defined, even when empty. -/
def ctxTruthy : Option (List Document) → Bool
  | none => false
  | some _ => true

/-- MAX_SEARCH_RESULTS (src/index.ts line 46). -/
def MAX_SEARCH_RESULTS : Nat := 3

/-- getWikiPageContent (src/index.ts lines 253-277): search wikipedia
for the term, keep the titles of the first MAX_SEARCH_RESULTS results,
fetch the page content of each (Promise.all keeps input order), and
join the contents with newline separators. -/
def getWikiPageContent (env : Env) (searchTerm : String) : Except Err String := do
  let searchResults ← env.search searchTerm
  let trimmedResults := (searchResults.take MAX_SEARCH_RESULTS).map (·.title)
  let contents ← trimmedResults.mapM env.pageContent
  return String.intercalate "\n" contents

/-- Value slot of one settled task of a Promise.all fan-out: some v
when task i resolved with v, none when it rejected or does not exist. -/
def taskResult (tasks : List (Except Err α)) (i : Nat) : Option α :=
  match tasks[i]? with
  | some (.ok v) => some v
  | _ => none

/-- Fill the result slots of a Promise.all fan-out in completion order:
each completing task writes its value into the slot of its own index,
so the output array is ordered by index, not by completion. -/
def fillSlots (tasks : List (Except Err α)) : List Nat → List (Option α) → List (Option α)
  | [], slots => slots
  | i :: rest, slots => fillSlots tasks rest (slots.set i (taskResult tasks i))

/-- Read out the slots once every one of them has been filled. -/
def allSome : List (Option α) → Option (List α)
  | [] => some []
  | none :: _ => none
  | some v :: rest => (allSome rest).map (v :: ·)

/-- First rejection in completion order, if any task rejects. -/
def firstRejection (tasks : List (Except Err α)) : List Nat → Option Err
  | [] => none
  | i :: rest =>
      match tasks[i]? with
      | some (.error e) => some e
      | _ => firstRejection tasks rest

/-- Promise.all of a list of tasks under a given completion order
(a permutation of the task indices): reject with the first rejection in
completion order, otherwise resolve with the values in index order. -/
def promiseAll (order : List Nat) (tasks : List (Except Err α)) : Except Err (List α) :=
  match firstRejection tasks order with
  | some e => .error e
  | none =>
      match allSome (fillSlots tasks order (List.replicate tasks.length none)) with
      | some vs => .ok vs
      | none => .error (.service "pending promise")

/-- getWikiPageContent with the Promise.all fan-out made explicit: the
per-title page fetches complete in the arbitrary order given, and the
concatenation is taken from the slot array. Used to show the result
does not depend on the completion order. -/
def getWikiPageContentSched (env : Env) (order : List Nat) (searchTerm : String) :
    Except Err String := do
  let searchResults ← env.search searchTerm
  let trimmedResults := (searchResults.take MAX_SEARCH_RESULTS).map (·.title)
  let contents ← promiseAll order (trimmedResults.map env.pageContent)
  return String.intercalate "\n" contents

/-- The mode test of the search node (src/index.ts line 97): the
follow-up prompt is used iff state.context and state.answer are both
truthy; context is an array, hence truthy exactly when defined. -/
def usesFollowUpMode (st : State) : Bool :=
  ctxTruthy st.context && strTruthy st.answer

/-- The prompt the search node builds (src/index.ts lines 96-108). -/
def searchPrompt (st : State) : Prompt :=
  if usesFollowUpMode st then
    .followUp st.question st.previousQuestion st.context st.answer
  else
    .starting st.question

/-- The search node (src/index.ts lines 95-127): build the mode prompt,
invoke the model, look for a tool call named wikipedia; without one,
update searchTerm to the empty string and answer to the content; with
one, update searchTerm to its searchTerm argument, answer to the
content, and previousQuestion to the current question. -/
def searchStep (env : Env) (st : State) : Except Err State := do
  let response ← env.llm (searchPrompt st)
  match response.tool_calls.find? (fun call => call.name == "wikipedia") with
  | none =>
      return { st with searchTerm := some "", answer := some response.content }
  | some wikiToolCall =>
      return { st with
        searchTerm := some wikiToolCall.searchTerm
        answer := some response.content
        previousQuestion := some st.question }

/-- Result of the fetchWiki node: the node outcome plus the number of
getWikiPageContent invocations it made. -/
structure FetchOut where
  res : Except Err State
  fetchCalls : Nat
  deriving Repr

/-- The fetchWiki node (src/index.ts lines 129-144): when
state.searchTerm is falsy (undefined or empty) skip, returning the
state unchanged; otherwise call getWikiPageContent and store the result
in searchContent. -/
def fetchWikiStep (env : Env) (st : State) : FetchOut :=
  if strTruthy st.searchTerm then
    match getWikiPageContent env (st.searchTerm.getD "") with
    | .error e => ⟨.error e, 1⟩
    | .ok wikiContent => ⟨.ok { st with searchContent := some wikiContent }, 1⟩
  else
    ⟨.ok st, 0⟩

/-- The process-wide embedding cache (src/index.ts line 146): a map
from content string to vector store, as an association list in
insertion order. -/
abbrev Cache := List (String × Store)

/-- Map lookup on the cache (embeddingCache.get). -/
def cacheGet : Cache → String → Option Store
  | [], _ => none
  | (k, v) :: rest, key => if k == key then some v else cacheGet rest key

/-- Map insertion on the cache (embeddingCache.set): overwrite an
existing key, else append. In the program it is only ever called on a
missing key. -/
def cacheSet : Cache → String → Store → Cache
  | [], key, store => [(key, store)]
  | (k, v) :: rest, key, store =>
      if k == key then (k, store) :: rest else (k, v) :: cacheSet rest key store

/-- Keys of the cache, in insertion order. -/
def cacheKeys (c : Cache) : List String :=
  c.map Prod.fst

/-- Result of the retrieve node: the cache after the node (the Map is
mutated in place, so its writes survive even a failing turn), the node
outcome, and the number of createEmbeddings invocations. -/
structure RetrieveOut where
  cache : Cache
  res : Except Err State
  builds : Nat
  deriving Repr

/-- The retrieve node (src/index.ts lines 148-166): look the content
string up in the cache; on a miss build the embeddings and insert the
store under the content key; then run the similarity search for the
question and store the documents in context. When searchContent is
undefined the lookup misses and createEmbeddings throws a TypeError
splitting undefined, before any cache write. -/
def retrieveStep (env : Env) (cache : Cache) (st : State) : RetrieveOut :=
  match st.searchContent with
  | none => ⟨cache, .error (.typeErr "createDocuments of undefined"), 0⟩
  | some content =>
    match cacheGet cache content with
    | some vectorStore =>
      match env.similaritySearch vectorStore st.question with
      | .error e => ⟨cache, .error e, 0⟩
      | .ok retrievedDocs => ⟨cache, .ok { st with context := some retrievedDocs }, 0⟩
    | none =>
      match env.createEmbeddings content with
      | .error e => ⟨cache, .error e, 1⟩
      | .ok vectorStore =>
        let cache1 := cacheSet cache content vectorStore
        match env.similaritySearch vectorStore st.question with
        | .error e => ⟨cache1, .error e, 1⟩
        | .ok retrievedDocs => ⟨cache1, .ok { st with context := some retrievedDocs }, 1⟩

/-- The generate node (src/index.ts lines 168-177): join the context
documents with newlines, invoke the model on the generation prompt, and
store the content as the answer. Reading context.map on an undefined
context would throw, but generate only runs after retrieve set it. -/
def generateStep (env : Env) (st : State) : Except Err State :=
  match st.context with
  | none => .error (.typeErr "map of undefined")
  | some docs => do
    let docsContent := String.intercalate "\n" (docs.map (·.pageContent))
    let response ← env.llm (.generate st.question docsContent)
    return { st with answer := some response.content }

/-- Result of one graph invocation: the cache afterwards, the turn
outcome, and the invocation counters of the embedding build and the
content fetcher. -/
structure TurnOut where
  cache : Cache
  res : Except Err State
  builds : Nat
  fetchCalls : Nat
  deriving Repr

/-- Modelled from the spec: one graph.invoke on the compiled pipeline
(src/index.ts lines 180-190 fix the edge order start -> search ->
fetchWiki -> retrieve -> generate -> end, and line 211 invokes it with
the question as input on the single thread). The LangGraph runtime and
the MemorySaver checkpointer are external library code absent from
src/; following the failure semantics of the spec, a turn is modelled
as the sequential composition of the four node functions over the
checkpointed state, a failing node aborting the turn so that no node
updates of the failed turn reach the next turn (the in-place cache Map
writes do survive, as they live outside the graph state). -/
def runTurn (env : Env) (cache : Cache) (st : State) (q : String) : TurnOut :=
  let st0 := { st with question := q }
  match searchStep env st0 with
  | .error e => ⟨cache, .error e, 0, 0⟩
  | .ok st1 =>
    let f := fetchWikiStep env st1
    match f.res with
    | .error e => ⟨cache, .error e, 0, f.fetchCalls⟩
    | .ok st2 =>
      let r := retrieveStep env cache st2
      match r.res with
      | .error e => ⟨r.cache, .error e, r.builds, f.fetchCalls⟩
      | .ok st3 =>
        match generateStep env st3 with
        | .error e => ⟨r.cache, .error e, r.builds, f.fetchCalls⟩
        | .ok st4 => ⟨r.cache, .ok st4, r.builds, f.fetchCalls⟩

/-- Console output of the stdin handler (src/index.ts lines 192-231);
the dim progress lines printed inside the nodes carry no state and are
not modelled. -/
inductive OutMsg where
  | farewell
  | thinking
  | answerMsg (answer : Option String)
  | errorMsg (e : Err)
  | askAnother
  deriving DecidableEq, Repr

/-- Result of the stdin data handler on one input line: exitCode is
some 0 when the process exits (the /bye branch), the printed messages,
the checkpointed conversation state and the cache for the next line,
and how many graph invocations were made. -/
structure LineOut where
  exitCode : Option Nat
  output : List OutMsg
  state : State
  cache : Cache
  turns : Nat
  deriving Repr

/-- Lowercase mapping of one character, as String.prototype.toLowerCase
acts on the basic letters. -/
def lowerChar (c : Char) : Char :=
  if 65 ≤ c.toNat ∧ c.toNat ≤ 90 then Char.ofNat (c.toNat + 32) else c

/-- The toLowerCase call of the session loop (src/index.ts line 201). -/
def jsToLower (s : String) : String :=
  ⟨s.data.map lowerChar⟩

/-- The trim call of the session loop (src/index.ts line 199):
whitespace stripped from both ends. -/
def jsTrim (s : String) : String :=
  ⟨((s.data.dropWhile Char.isWhitespace).reverse.dropWhile Char.isWhitespace).reverse⟩

/-- The stdin data handler (src/index.ts lines 198-231): trim the line;
on /bye in any letter case print the farewell and exit 0; on an empty
trimmed line return silently; otherwise invoke the graph once with the
question under the fixed thread, printing the answer on success or the
formatted error line on failure, then the ask-another prompt. A failed
turn leaves the checkpointed conversation state unchanged (see
runTurn). -/
def handleLine (env : Env) (cache : Cache) (st : State) (data : String) : LineOut :=
  let question := jsTrim data
  if jsToLower question == "/bye" then
    ⟨some 0, [.farewell], st, cache, 0⟩
  else if question.length == 0 then
    ⟨none, [], st, cache, 0⟩
  else
    let t := runTurn env cache st question
    match t.res with
    | .ok st1 => ⟨none, [.thinking, .answerMsg st1.answer, .askAnother], st1, t.cache, 1⟩
    | .error e => ⟨none, [.thinking, .errorMsg e, .askAnother], st, t.cache, 1⟩

/-- Mode selection as the specification words it, for comparison with
the implemented test: follow-up mode iff the state holds a non-empty
context (a present, non-empty chunk list) and a prior answer. -/
def specFollowUpMode (st : State) : Bool :=
  (match st.context with
   | some docs => !docs.isEmpty
   | none => false) && st.answer.isSome

/-- Environment whose title search matches zero pages for every term;
the remaining capabilities are never reached from getWikiPageContent. -/
def envEmptySearch : Env :=
  { llm := fun _ => .error (.service "unused")
    search := fun _ => .ok []
    pageContent := fun _ => .error (.service "unused")
    createEmbeddings := fun _ => .error (.service "unused")
    similaritySearch := fun _ _ => .error (.service "unused") }

/-- Concrete happy-path environment: the starting prompt yields a
wikipedia tool call for t1, the follow-up and generation prompts yield
plain answers, the search finds one title, and the similarity search of
any store returns no documents (as a vector store with no close match
or no documents does). -/
def envA : Env :=
  { llm := fun p =>
      match p with
      | .starting _ => .ok ⟨"", [⟨"wikipedia", "t1"⟩]⟩
      | .followUp _ _ _ _ => .ok ⟨"follow-ans", []⟩
      | .generate _ _ => .ok ⟨"gen-ans", []⟩
    search := fun _ => .ok [⟨"T1"⟩]
    pageContent := fun t => .ok ("page of " ++ t)
    createEmbeddings := fun c => .ok ⟨[⟨c⟩]⟩
    similaritySearch := fun _ _ => .ok [] }

/-- The conversation state after the first turn of envA on question q1:
the turn searched t1, fetched one page, built and cached its index, and
generated an answer over an empty retrieval. -/
def stateA : State :=
  { question := "q1"
    context := some []
    searchTerm := some "t1"
    searchContent := some "page of T1"
    answer := some "gen-ans"
    previousQuestion := some "q1" }

/-- Environment whose chat model never emits a tool call. -/
def envNoTool : Env :=
  { llm := fun _ => .ok ⟨"direct answer", []⟩
    search := fun _ => .ok []
    pageContent := fun _ => .error (.service "unused")
    createEmbeddings := fun _ => .error (.service "unused")
    similaritySearch := fun _ _ => .error (.service "unused") }

/-- Environment whose chat model is down: every completion fails. -/
def envDown : Env :=
  { llm := fun _ => .error (.service "completion unavailable")
    search := fun _ => .ok []
    pageContent := fun _ => .error (.service "unused")
    createEmbeddings := fun _ => .error (.service "unused")
    similaritySearch := fun _ _ => .error (.service "unused") }

/-- Environment with four search results, used to exercise the take of
the first three titles and the completion-order independence. -/
def envB : Env :=
  { llm := fun _ => .error (.service "unused")
    search := fun _ => .ok [⟨"A"⟩, ⟨"B"⟩, ⟨"C"⟩, ⟨"D"⟩]
    pageContent := fun t => .ok ("text " ++ t)
    createEmbeddings := fun _ => .error (.service "unused")
    similaritySearch := fun _ _ => .error (.service "unused") }

/-! Helper lemmas. -/

theorem except_bind_ok {α β : Type} (a : α) (f : α → Except Err β) :
    (Except.ok a >>= f : Except Err β) = f a := rfl

theorem except_bind_error {α β : Type} (e : Err) (f : α → Except Err β) :
    ((Except.error e : Except Err α) >>= f : Except Err β) = .error e := rfl

theorem fillSlots_getElem? {α : Type} (tasks : List (Except Err α)) (order : List Nat) :
    ∀ (slots : List (Option α)) (j : Nat),
      (fillSlots tasks order slots)[j]? =
        if j ∈ order ∧ j < slots.length then some (taskResult tasks j) else slots[j]? := by
  induction order with
  | nil => intro slots j; simp [fillSlots]
  | cons i rest ih =>
      intro slots j
      simp only [fillSlots]
      rw [ih]
      by_cases hmem : j ∈ rest
      · by_cases hlt : j < slots.length
        · have h1 : j ∈ rest ∧ j < (slots.set i (taskResult tasks i)).length :=
            ⟨hmem, by rw [List.length_set]; exact hlt⟩
          have h2 : j ∈ i :: rest ∧ j < slots.length := ⟨List.mem_cons_of_mem i hmem, hlt⟩
          rw [if_pos h1, if_pos h2]
        · have h1 : ¬(j ∈ rest ∧ j < (slots.set i (taskResult tasks i)).length) := by
            rw [List.length_set]; exact fun hc => hlt hc.2
          have h2 : ¬(j ∈ i :: rest ∧ j < slots.length) := fun hc => hlt hc.2
          rw [if_neg h1, if_neg h2, List.getElem?_eq_none (by rw [List.length_set]; omega),
            List.getElem?_eq_none (by omega)]
      · have h1 : ¬(j ∈ rest ∧ j < (slots.set i (taskResult tasks i)).length) :=
          fun hc => hmem hc.1
        rw [if_neg h1, List.getElem?_set]
        by_cases hij : i = j
        · by_cases hlt : i < slots.length
          · rw [if_pos hij, if_pos hlt,
              if_pos ⟨List.mem_cons.mpr (Or.inl hij.symm), by omega⟩, hij]
          · rw [if_pos hij, if_neg hlt, if_neg (fun hc => hlt (by omega)),
              List.getElem?_eq_none (by omega)]
        · have h2 : ¬(j ∈ i :: rest ∧ j < slots.length) := by
            intro hc
            rcases List.mem_cons.mp hc.1 with h | h
            · exact hij h.symm
            · exact hmem h
          rw [if_neg hij, if_neg h2]

theorem allSome_map_some {α : Type} (l : List α) : allSome (l.map some) = some l := by
  induction l with
  | nil => rfl
  | cons a t ih => simp [allSome, ih]

theorem firstRejection_map_ok {α : Type} (vals : List α) (order : List Nat) :
    firstRejection (vals.map Except.ok) order = none := by
  induction order with
  | nil => rfl
  | cons i rest ih =>
      have h := List.getElem?_map (β := Except Err α) Except.ok vals i
      cases hv : vals[i]? with
      | none => simp only [firstRejection]; rw [h, hv]; simpa using ih
      | some v => simp only [firstRejection]; rw [h, hv]; simpa using ih

theorem promiseAll_perm_ok {α : Type} (vals : List α) (order : List Nat)
    (h : order.Perm (List.range vals.length)) :
    promiseAll order (vals.map Except.ok) = .ok vals := by
  have hmem : ∀ j, j ∈ order ↔ j < vals.length := fun j => by
    rw [h.mem_iff, List.mem_range]
  have hfill : fillSlots (vals.map Except.ok) order
      (List.replicate (vals.map (Except.ok (ε := Err))).length none) = vals.map some := by
    apply List.ext_getElem?
    intro j
    rw [fillSlots_getElem?]
    by_cases hj : j < vals.length
    · have ht : taskResult (vals.map Except.ok) j = some vals[j] := by
        simp [taskResult, List.getElem?_map, List.getElem?_eq_getElem hj]
      simp [hmem, hj, ht, List.getElem?_map, List.getElem?_eq_getElem hj]
    · have hno : ¬ j ∈ order := fun hc => hj ((hmem j).mp hc)
      simp only [hno, false_and, if_false, List.getElem?_replicate, List.length_replicate,
        List.length_map]
      rw [List.getElem?_eq_none (by rw [List.length_map]; omega)]
      simp [hj]
  simp only [promiseAll, firstRejection_map_ok, hfill, allSome_map_some]

theorem mapM_eq_ok {α β : Type} (f : α → Except Err β) (g : α → β) :
    ∀ l : List α, (∀ a ∈ l, f a = .ok (g a)) → l.mapM f = .ok (l.map g) := by
  intro l
  induction l with
  | nil => intro _; rfl
  | cons a t ih =>
      intro h
      rw [List.mapM_cons, h a (List.mem_cons_self a t),
        ih (fun b hb => h b (List.mem_cons_of_mem a hb))]
      rfl

/-! Claim C2. The code does not fail on a zero-page search: it returns
the empty concatenation. -/

/-- C2 counterexample: for a term whose title search returns zero
pages, getWikiPageContent returns successfully (with the empty string),
contradicting the claim that it fails with an external-service
error. -/
theorem c2_counterexample :
    envEmptySearch.search "zzz" = .ok [] ∧
    getWikiPageContent envEmptySearch "zzz" = .ok "" := by
  exact ⟨rfl, rfl⟩

/-- C2 amended: for every search term for which the external title
search returns zero pages, the Content Fetcher returns successfully
with the empty string. -/
theorem c2_amended_zero_pages_ok (env : Env) (term : String)
    (h : env.search term = .ok []) :
    getWikiPageContent env term = .ok "" := by
  unfold getWikiPageContent
  rw [h]
  rfl

/-- C2 amended witness at a concrete environment. -/
theorem c2_amended_zero_pages_ok_witness :
    getWikiPageContent envEmptySearch "zzz" = .ok "" :=
  c2_amended_zero_pages_ok envEmptySearch "zzz" rfl

theorem searchStep_no_tool (env : Env) (st : State) (resp : LlmResponse)
    (hllm : env.llm (searchPrompt st) = .ok resp)
    (hno : resp.tool_calls.find? (fun call => call.name == "wikipedia") = none) :
    searchStep env st = .ok { st with searchTerm := some "", answer := some resp.content } := by
  unfold searchStep
  rw [hllm, except_bind_ok, hno]
  rfl

theorem searchStep_with_tool (env : Env) (st : State) (resp : LlmResponse) (call : ToolCall)
    (hllm : env.llm (searchPrompt st) = .ok resp)
    (hsome : resp.tool_calls.find? (fun c => c.name == "wikipedia") = some call) :
    searchStep env st = .ok { st with
      searchTerm := some call.searchTerm
      answer := some resp.content
      previousQuestion := some st.question } := by
  unfold searchStep
  rw [hllm, except_bind_ok, hsome]
  rfl

/-! Claim C6. Tool-call extraction in the Reasoning Step. -/

/-- C6: when the model response carries a tool invocation named
wikipedia, the search node returns its searchTerm field as the next
search term, sets previousQuestion to the current question, and keeps
the natural-language content as the provisional answer; without such an
invocation it returns the empty search term and the content as the
answer. -/
theorem c6_tool_call_extraction (env : Env) (st : State) (resp : LlmResponse)
    (hllm : env.llm (searchPrompt st) = .ok resp) :
    (∀ call, resp.tool_calls.find? (fun c => c.name == "wikipedia") = some call →
       searchStep env st = .ok { st with
         searchTerm := some call.searchTerm
         answer := some resp.content
         previousQuestion := some st.question }) ∧
    (resp.tool_calls.find? (fun c => c.name == "wikipedia") = none →
       searchStep env st = .ok { st with searchTerm := some "", answer := some resp.content }) := by
  exact ⟨fun call hsome => searchStep_with_tool env st resp call hllm hsome,
    fun hno => searchStep_no_tool env st resp hllm hno⟩

/-- C6 witness: both branches at concrete environments; the starting
prompt of envA carries a wikipedia tool call for t1, the model of
envNoTool never calls a tool. -/
theorem c6_tool_call_extraction_witness :
    searchStep envA { initState with question := "q1" } =
      .ok { initState with
        question := "q1"
        searchTerm := some "t1"
        answer := some ""
        previousQuestion := some "q1" } ∧
    searchStep envNoTool { initState with question := "q1" } =
      .ok { initState with
        question := "q1"
        searchTerm := some ""
        answer := some "direct answer" } := by
  constructor
  · exact (c6_tool_call_extraction envA { initState with question := "q1" }
      ⟨"", [⟨"wikipedia", "t1"⟩]⟩ rfl).1 ⟨"wikipedia", "t1"⟩ rfl
  · exact (c6_tool_call_extraction envNoTool { initState with question := "q1" }
      ⟨"direct answer", []⟩ rfl).2 rfl

/-! Claim C10. previousQuestion only moves on search-producing turns. -/

/-- C10: the search node updates previousQuestion exactly on turns with
a wikipedia tool call (setting it to the current question); on a
no-search turn it keeps its prior value; and the follow-up prompt of a
later turn cites the stored previousQuestion, not the question of the
latest turn. -/
theorem c10_previous_question_update (env : Env) (st : State) (resp : LlmResponse)
    (hllm : env.llm (searchPrompt st) = .ok resp) :
    (resp.tool_calls.find? (fun c => c.name == "wikipedia") = none →
       ∃ st1, searchStep env st = .ok st1 ∧ st1.previousQuestion = st.previousQuestion) ∧
    (∀ call, resp.tool_calls.find? (fun c => c.name == "wikipedia") = some call →
       ∃ st1, searchStep env st = .ok st1 ∧ st1.previousQuestion = some st.question) ∧
    (usesFollowUpMode st = true →
       searchPrompt st = .followUp st.question st.previousQuestion st.context st.answer) := by
  refine ⟨?_, ?_, ?_⟩
  · intro hno
    exact ⟨_, searchStep_no_tool env st resp hllm hno, rfl⟩
  · intro call hsome
    exact ⟨_, searchStep_with_tool env st resp call hllm hsome, rfl⟩
  · intro hmode
    unfold searchPrompt
    rw [hmode]
    rfl

/-- C10 witness: a no-search turn of envNoTool keeps the stored
previousQuestion, a tool-call turn of envA moves it to the current
question, and the follow-up prompt of stateA cites the stored value. -/
theorem c10_previous_question_update_witness :
    (∃ st1, searchStep envNoTool { initState with question := "q2", previousQuestion := some "q1" } =
        .ok st1 ∧ st1.previousQuestion = some "q1") ∧
    (∃ st1, searchStep envA { initState with question := "q1" } = .ok st1 ∧
        st1.previousQuestion = some "q1") ∧
    searchPrompt stateA = .followUp "q1" (some "q1") (some []) (some "gen-ans") := by
  refine ⟨?_, ?_, ?_⟩
  · exact (c10_previous_question_update envNoTool
      { initState with question := "q2", previousQuestion := some "q1" }
      ⟨"direct answer", []⟩ rfl).1 rfl
  · exact (c10_previous_question_update envA { initState with question := "q1" }
      ⟨"", [⟨"wikipedia", "t1"⟩]⟩ rfl).2.1 ⟨"wikipedia", "t1"⟩ rfl
  · exact (c10_previous_question_update envA stateA ⟨"follow-ans", []⟩ rfl).2.2 rfl

/-! Claim C7. Mode selection: the code tests truthiness of the context
array (any defined array, even empty) and of the answer string, not
non-emptiness of the context. -/

/-- C7 counterexample: a reachable turn state (it is exactly the state
after the first turn of envA on q1) whose context is a present but
empty chunk list and whose answer is non-empty; the code picks
follow-up mode there, while the claim requires fresh mode because the
context holds no chunks. -/
theorem c7_counterexample :
    (handleLine envA [] initState "q1").state = stateA ∧
    usesFollowUpMode stateA = true ∧
    searchPrompt stateA = .followUp "q1" (some "q1") (some []) (some "gen-ans") ∧
    specFollowUpMode stateA = false := by
  refine ⟨by decide, by decide, by decide, by decide⟩

/-- C7 amended: the Reasoning Step uses follow-up mode iff the context
field is present (even as an empty chunk list) and the prior answer is
a non-empty string; otherwise it uses fresh mode with only the new
question. -/
theorem c7_amended_mode_selection (st : State) :
    (searchPrompt st = .followUp st.question st.previousQuestion st.context st.answer ↔
       st.context ≠ none ∧ ∃ a, st.answer = some a ∧ a ≠ "") ∧
    (¬(st.context ≠ none ∧ ∃ a, st.answer = some a ∧ a ≠ "") →
       searchPrompt st = .starting st.question) := by
  have hmode : usesFollowUpMode st = true ↔
      st.context ≠ none ∧ ∃ a, st.answer = some a ∧ a ≠ "" := by
    unfold usesFollowUpMode ctxTruthy strTruthy
    cases hc : st.context with
    | none => simp
    | some docs =>
      cases ha : st.answer with
      | none => simp
      | some a =>
        by_cases he : a = ""
        · simp [he]
        · simp [he]
  constructor
  · constructor
    · intro hp
      by_cases hm : usesFollowUpMode st = true
      · exact hmode.mp hm
      · exfalso
        unfold searchPrompt at hp
        rw [if_neg (by simpa using hm)] at hp
        exact Prompt.noConfusion hp
    · intro hcond
      unfold searchPrompt
      rw [if_pos (by simpa using hmode.mpr hcond)]
  · intro hcond
    unfold searchPrompt
    rw [if_neg]
    intro hm
    exact hcond (hmode.mp (by simpa using hm))

/-- C7 amended witness: follow-up mode at stateA (context present,
answer non-empty), fresh mode at the initial state. -/
theorem c7_amended_mode_selection_witness :
    searchPrompt stateA = .followUp "q1" (some "q1") (some []) (some "gen-ans") ∧
    searchPrompt initState = .starting "" := by
  constructor
  · exact (c7_amended_mode_selection stateA).1.mpr
      ⟨by simp [stateA], "gen-ans", rfl, by simp⟩
  · exact (c7_amended_mode_selection initState).2
      (by rintro ⟨h, _⟩; exact h rfl)

theorem length_beq_zero_eq_false (s : String) (h : s ≠ "") : (s.length == 0) = false := by
  simp only [beq_eq_false_iff_ne, ne_eq, String.length]
  intro hh
  apply h
  cases s with
  | mk data =>
    cases data with
    | nil => rfl
    | cons a l => simp at hh

/-! Claim C1. A failing step aborts the turn, the session loop prints
the error and continues, and the conversation state of the next turn is
the state from before the failed turn. -/

/-- C1: when the turn on a line fails with an error, the stdin handler
does not exit, prints the formatted error line (between the thinking
line and the ask-another prompt), and hands the unchanged pre-turn
conversation state to the next line. -/
theorem c1_turn_failure_preserves_state (env : Env) (cache : Cache) (st : State)
    (data : String) (e : Err)
    (hbye : jsToLower (jsTrim data) ≠ "/bye")
    (hne : jsTrim data ≠ "")
    (herr : (runTurn env cache st (jsTrim data)).res = .error e) :
    handleLine env cache st data =
      ⟨none, [.thinking, .errorMsg e, .askAnother], st,
        (runTurn env cache st (jsTrim data)).cache, 1⟩ := by
  have h1 : (jsToLower (jsTrim data) == "/bye") = false := beq_eq_false_iff_ne.mpr hbye
  have h2 : ((jsTrim data).length == 0) = false := length_beq_zero_eq_false _ hne
  simp only [handleLine, h1, h2, Bool.false_eq_true, if_false, herr]

/-- C1 witness: with the completion service down, the turn on the line
ask fails in the search step; the handler prints the error and the
conversation state is unchanged. -/
theorem c1_turn_failure_preserves_state_witness :
    handleLine envDown [] initState "ask" =
      ⟨none, [.thinking, .errorMsg (.service "completion unavailable"), .askAnother],
        initState, [], 1⟩ := by
  exact c1_turn_failure_preserves_state envDown [] initState "ask"
    (.service "completion unavailable") (by decide) (by decide) rfl

/-! Claim C8. Session loop line handling. -/

/-- C8: a line trimming to /bye in any letter case exits with code 0,
a farewell, and no turn; a line trimming to empty is ignored with no
output and no state change; any other line runs exactly one turn on the
single conversation thread and prints either the answer or a formatted
error. -/
theorem c8_session_loop (env : Env) (cache : Cache) (st : State) (data : String) :
    (jsToLower (jsTrim data) = "/bye" →
       handleLine env cache st data = ⟨some 0, [.farewell], st, cache, 0⟩) ∧
    (jsTrim data = "" → handleLine env cache st data = ⟨none, [], st, cache, 0⟩) ∧
    (jsToLower (jsTrim data) ≠ "/bye" → jsTrim data ≠ "" →
       ((∃ st1, (runTurn env cache st (jsTrim data)).res = .ok st1 ∧
           handleLine env cache st data =
             ⟨none, [.thinking, .answerMsg st1.answer, .askAnother], st1,
               (runTurn env cache st (jsTrim data)).cache, 1⟩) ∨
        (∃ e, (runTurn env cache st (jsTrim data)).res = .error e ∧
           handleLine env cache st data =
             ⟨none, [.thinking, .errorMsg e, .askAnother], st,
               (runTurn env cache st (jsTrim data)).cache, 1⟩))) := by
  refine ⟨?_, ?_, ?_⟩
  · intro h
    have hb : (jsToLower (jsTrim data) == "/bye") = true := beq_iff_eq.mpr h
    simp only [handleLine, hb, if_true]
  · intro h
    have hb : (jsToLower (jsTrim data) == "/bye") = false := by rw [h]; rfl
    have hlen : ((jsTrim data).length == 0) = true := by rw [h]; rfl
    simp only [handleLine, hb, Bool.false_eq_true, if_false, hlen, if_true]
  · intro hbye hne
    have h1 : (jsToLower (jsTrim data) == "/bye") = false := beq_eq_false_iff_ne.mpr hbye
    have h2 : ((jsTrim data).length == 0) = false := length_beq_zero_eq_false _ hne
    cases hres : (runTurn env cache st (jsTrim data)).res with
    | ok st1 =>
        left
        exact ⟨st1, rfl, by simp only [handleLine, h1, h2, Bool.false_eq_true, if_false, hres]⟩
    | error e =>
        right
        exact ⟨e, rfl, by simp only [handleLine, h1, h2, Bool.false_eq_true, if_false, hres]⟩

/-- C8 witness: the three line shapes at concrete inputs, exercising
the case-insensitive /bye, a blank line, and a question line. -/
theorem c8_session_loop_witness :
    handleLine envA [] initState " /BYE " = ⟨some 0, [.farewell], initState, [], 0⟩ ∧
    handleLine envA [] initState "   " = ⟨none, [], initState, [], 0⟩ ∧
    ((∃ st1, (runTurn envDown [] initState (jsTrim "ask")).res = .ok st1 ∧
        handleLine envDown [] initState "ask" =
          ⟨none, [.thinking, .answerMsg st1.answer, .askAnother], st1,
            (runTurn envDown [] initState (jsTrim "ask")).cache, 1⟩) ∨
     (∃ e, (runTurn envDown [] initState (jsTrim "ask")).res = .error e ∧
        handleLine envDown [] initState "ask" =
          ⟨none, [.thinking, .errorMsg e, .askAnother], initState,
            (runTurn envDown [] initState (jsTrim "ask")).cache, 1⟩)) := by
  refine ⟨?_, ?_, ?_⟩
  · exact (c8_session_loop envA [] initState " /BYE ").1 (by decide)
  · exact (c8_session_loop envA [] initState "   ").2.1 (by decide)
  · exact (c8_session_loop envDown [] initState "ask").2.2 (by decide) (by decide)

/-! Claim C9. The very first turn with an empty search term fails in
the retrieve step instead of returning the provisional answer. -/

/-- C9: on the first turn of a session, when the model answers without
a wikipedia tool call, fetchWiki skips (searchContent stays undefined)
and retrieve throws on the undefined content, so the turn yields an
error and no answer, with no fetch and no index build. -/
theorem c9_first_turn_empty_search_fails (env : Env) (q : String) (resp : LlmResponse)
    (hllm : env.llm (.starting q) = .ok resp)
    (hno : resp.tool_calls.find? (fun call => call.name == "wikipedia") = none) :
    runTurn env [] initState q =
      ⟨[], .error (.typeErr "createDocuments of undefined"), 0, 0⟩ := by
  have hllm1 : env.llm (searchPrompt { initState with question := q }) = .ok resp := hllm
  have hsearch := searchStep_no_tool env { initState with question := q } resp hllm1 hno
  simp only [runTurn, hsearch]
  rfl

/-- C9 witness: the first turn of envNoTool on a question fails with
the TypeError of the undefined content. -/
theorem c9_first_turn_empty_search_fails_witness :
    runTurn envNoTool [] initState "hello" =
      ⟨[], .error (.typeErr "createDocuments of undefined"), 0, 0⟩ :=
  c9_first_turn_empty_search_fails envNoTool "hello" ⟨"direct answer", []⟩ rfl rfl

theorem cacheGet_cacheSet_self (c : Cache) (k : String) (v : Store) :
    cacheGet (cacheSet c k v) k = some v := by
  induction c with
  | nil => simp [cacheSet, cacheGet]
  | cons p rest ih =>
      obtain ⟨k1, v1⟩ := p
      by_cases h : k1 = k
      · have hb : (k1 == k) = true := beq_iff_eq.mpr h
        simp only [cacheSet, hb, if_true, cacheGet]
      · have hb : (k1 == k) = false := beq_eq_false_iff_ne.mpr h
        simp only [cacheSet, hb, Bool.false_eq_true, if_false, cacheGet, ih]

theorem cacheGet_cacheSet_ne (c : Cache) (k k1 : String) (v : Store) (h : k1 ≠ k) :
    cacheGet (cacheSet c k v) k1 = cacheGet c k1 := by
  have hb : (k == k1) = false := beq_eq_false_iff_ne.mpr (fun hc => h hc.symm)
  induction c with
  | nil => simp only [cacheSet, cacheGet, hb, Bool.false_eq_true, if_false]
  | cons p rest ih =>
      obtain ⟨k2, v2⟩ := p
      by_cases h2 : k2 = k
      · have hb2 : (k2 == k) = true := beq_iff_eq.mpr h2
        have hb3 : (k2 == k1) = false := by
          rw [h2]; exact hb
        simp only [cacheSet, hb2, if_true, cacheGet, hb3, Bool.false_eq_true, if_false]
      · have hb2 : (k2 == k) = false := beq_eq_false_iff_ne.mpr h2
        simp only [cacheSet, hb2, Bool.false_eq_true, if_false, cacheGet, ih]

theorem not_mem_keys_of_cacheGet_none (c : Cache) (k : String)
    (h : cacheGet c k = none) : k ∉ cacheKeys c := by
  induction c with
  | nil => simp [cacheKeys]
  | cons p rest ih =>
      obtain ⟨k1, v1⟩ := p
      by_cases h1 : k1 = k
      · exfalso
        have hb : (k1 == k) = true := beq_iff_eq.mpr h1
        simp only [cacheGet, hb, if_true] at h
        exact Option.noConfusion h
      · have hb : (k1 == k) = false := beq_eq_false_iff_ne.mpr h1
        simp only [cacheGet, hb, Bool.false_eq_true, if_false] at h
        simp only [cacheKeys, List.map_cons, List.mem_cons]
        rintro (hk | hk)
        · exact h1 hk.symm
        · exact ih h hk

theorem cacheKeys_cacheSet_of_none (c : Cache) (k : String) (v : Store)
    (h : cacheGet c k = none) : cacheKeys (cacheSet c k v) = cacheKeys c ++ [k] := by
  induction c with
  | nil => rfl
  | cons p rest ih =>
      obtain ⟨k1, v1⟩ := p
      by_cases h1 : k1 = k
      · exfalso
        have hb : (k1 == k) = true := beq_iff_eq.mpr h1
        simp only [cacheGet, hb, if_true] at h
        exact Option.noConfusion h
      · have hb : (k1 == k) = false := beq_eq_false_iff_ne.mpr h1
        simp only [cacheGet, hb, Bool.false_eq_true, if_false] at h
        simp only [cacheSet, hb, Bool.false_eq_true, if_false, cacheKeys, List.map_cons,
          List.cons_append]
        exact congrArg (k1 :: ·) (ih h)

theorem nodup_keys_cacheSet (c : Cache) (k : String) (v : Store)
    (h : cacheGet c k = none) (hnd : (cacheKeys c).Nodup) :
    (cacheKeys (cacheSet c k v)).Nodup := by
  rw [cacheKeys_cacheSet_of_none c k v h]
  rw [List.nodup_append]
  refine ⟨hnd, List.nodup_singleton k, ?_⟩
  intro a ha hb
  rw [List.mem_singleton] at hb
  subst hb
  exact not_mem_keys_of_cacheGet_none c a h ha

theorem retrieveStep_cache_mono (env : Env) (cache : Cache) (st : State) (k : String)
    (v : Store) (h : cacheGet cache k = some v) :
    cacheGet (retrieveStep env cache st).cache k = some v := by
  cases hc : st.searchContent with
  | none => simp only [retrieveStep, hc]; exact h
  | some content =>
      cases hget : cacheGet cache content with
      | some store =>
          cases hsim : env.similaritySearch store st.question with
          | error e => simp only [retrieveStep, hc, hget, hsim]; exact h
          | ok docs => simp only [retrieveStep, hc, hget, hsim]; exact h
      | none =>
          have hk : k ≠ content := by
            intro hkc
            rw [hkc, hget] at h
            exact Option.noConfusion h
          cases hemb : env.createEmbeddings content with
          | error e => simp only [retrieveStep, hc, hget, hemb]; exact h
          | ok store =>
              have hmono := cacheGet_cacheSet_ne cache content k store hk
              cases hsim : env.similaritySearch store st.question with
              | error e =>
                  simp only [retrieveStep, hc, hget, hemb, hsim]
                  rw [hmono]; exact h
              | ok docs =>
                  simp only [retrieveStep, hc, hget, hemb, hsim]
                  rw [hmono]; exact h

theorem retrieveStep_keys_nodup (env : Env) (cache : Cache) (st : State)
    (hnd : (cacheKeys cache).Nodup) : (cacheKeys (retrieveStep env cache st).cache).Nodup := by
  cases hc : st.searchContent with
  | none => simpa only [retrieveStep, hc] using hnd
  | some content =>
      cases hget : cacheGet cache content with
      | some store =>
          cases hsim : env.similaritySearch store st.question with
          | error e => simpa only [retrieveStep, hc, hget, hsim] using hnd
          | ok docs => simpa only [retrieveStep, hc, hget, hsim] using hnd
      | none =>
          cases hemb : env.createEmbeddings content with
          | error e => simpa only [retrieveStep, hc, hget, hemb] using hnd
          | ok store =>
              have hset := nodup_keys_cacheSet cache content store hget hnd
              cases hsim : env.similaritySearch store st.question with
              | error e => simpa only [retrieveStep, hc, hget, hemb, hsim] using hset
              | ok docs => simpa only [retrieveStep, hc, hget, hemb, hsim] using hset

theorem runTurn_cache_mono (env : Env) (cache : Cache) (st : State) (q : String)
    (k : String) (v : Store) (h : cacheGet cache k = some v) :
    cacheGet (runTurn env cache st q).cache k = some v := by
  simp only [runTurn]
  split
  · exact h
  · split
    · exact h
    · split
      · exact retrieveStep_cache_mono env cache _ k v h
      · split
        · exact retrieveStep_cache_mono env cache _ k v h
        · exact retrieveStep_cache_mono env cache _ k v h

theorem runTurn_keys_nodup (env : Env) (cache : Cache) (st : State) (q : String)
    (hnd : (cacheKeys cache).Nodup) : (cacheKeys (runTurn env cache st q).cache).Nodup := by
  simp only [runTurn]
  split
  · exact hnd
  · split
    · exact hnd
    · split
      · exact retrieveStep_keys_nodup env cache _ hnd
      · split
        · exact retrieveStep_keys_nodup env cache _ hnd
        · exact retrieveStep_keys_nodup env cache _ hnd

/-! Claim C3. The embedding index is built exactly once per distinct
content string and cached for the process lifetime. -/

/-- C3: a retrieve on uncached content runs exactly one build and
inserts the store under the exact content string; a retrieve on cached
content runs zero builds and returns the cached store (whose search
fills the context); a turn never removes or changes an existing cache
entry; and the cache never holds two entries for one string. -/
theorem c3_embedding_cache_once (env : Env) :
    (∀ cache (st : State) content store docs,
        st.searchContent = some content →
        cacheGet cache content = none →
        env.createEmbeddings content = .ok store →
        env.similaritySearch store st.question = .ok docs →
        retrieveStep env cache st =
          ⟨cacheSet cache content store, .ok { st with context := some docs }, 1⟩ ∧
        cacheGet (cacheSet cache content store) content = some store) ∧
    (∀ cache (st : State) content store docs,
        st.searchContent = some content →
        cacheGet cache content = some store →
        env.similaritySearch store st.question = .ok docs →
        retrieveStep env cache st = ⟨cache, .ok { st with context := some docs }, 0⟩) ∧
    (∀ cache (st : State) q k v, cacheGet cache k = some v →
        cacheGet (runTurn env cache st q).cache k = some v) ∧
    (∀ cache (st : State) q, (cacheKeys cache).Nodup →
        (cacheKeys (runTurn env cache st q).cache).Nodup) := by
  refine ⟨?_, ?_, ?_, ?_⟩
  · intro cache st content store docs hc hget hemb hsim
    refine ⟨?_, cacheGet_cacheSet_self cache content store⟩
    simp only [retrieveStep, hc, hget, hemb, hsim]
  · intro cache st content store docs hc hget hsim
    simp only [retrieveStep, hc, hget, hsim]
  · intro cache st q k v h
    exact runTurn_cache_mono env cache st q k v h
  · intro cache st q hnd
    exact runTurn_keys_nodup env cache st q hnd

/-- C3 witness: with envA, a first retrieve on the fetched page builds
once and caches; a second retrieve on the identical content string hits
the cache with zero builds; a further whole turn keeps the entry; and
the keys stay distinct. -/
theorem c3_embedding_cache_once_witness :
    retrieveStep envA [] stateA =
      ⟨[("page of T1", ⟨[⟨"page of T1"⟩]⟩)], .ok stateA, 1⟩ ∧
    retrieveStep envA [("page of T1", ⟨[⟨"page of T1"⟩]⟩)] stateA =
      ⟨[("page of T1", ⟨[⟨"page of T1"⟩]⟩)], .ok stateA, 0⟩ ∧
    cacheGet (runTurn envA [("page of T1", ⟨[⟨"page of T1"⟩]⟩)] stateA "q3").cache
      "page of T1" = some ⟨[⟨"page of T1"⟩]⟩ ∧
    (cacheKeys (runTurn envA [("page of T1", ⟨[⟨"page of T1"⟩]⟩)] stateA "q3").cache).Nodup := by
  obtain ⟨h1, h2, h3, h4⟩ := c3_embedding_cache_once envA
  refine ⟨?_, ?_, ?_, ?_⟩
  · exact (h1 [] stateA "page of T1" ⟨[⟨"page of T1"⟩]⟩ [] rfl rfl rfl rfl).1
  · exact h2 [("page of T1", ⟨[⟨"page of T1"⟩]⟩)] stateA "page of T1"
      ⟨[⟨"page of T1"⟩]⟩ [] rfl rfl rfl
  · exact h3 [("page of T1", ⟨[⟨"page of T1"⟩]⟩)] stateA "q3" "page of T1"
      ⟨[⟨"page of T1"⟩]⟩ rfl
  · exact h4 [("page of T1", ⟨[⟨"page of T1"⟩]⟩)] stateA "q3" (by decide)

/-! Claim C4. A turn with an empty search term skips the fetch but
still retrieves and regenerates. -/

/-- C4: when the model returns no tool call (empty search term), the
fetchWiki node returns its state unchanged with zero content-fetcher
invocations, and the whole turn still runs retrieve (here against the
already cached index of the carried-forward content) and generate,
ending in a fresh answer from the generation prompt. -/
theorem c4_empty_search_term_skips_fetch (env : Env) (cache : Cache) (st : State)
    (q : String) (resp resp2 : LlmResponse) (content : String) (store : Store)
    (docs : List Document)
    (hllm : env.llm (searchPrompt { st with question := q }) = .ok resp)
    (hno : resp.tool_calls.find? (fun call => call.name == "wikipedia") = none)
    (hcontent : st.searchContent = some content)
    (hhit : cacheGet cache content = some store)
    (hsim : env.similaritySearch store q = .ok docs)
    (hgen : env.llm (.generate q (String.intercalate "\n" (docs.map (·.pageContent)))) =
      .ok resp2) :
    fetchWikiStep env
        { st with
          question := q
          searchTerm := some ""
          answer := some resp.content } =
      ⟨.ok
        { st with
          question := q
          searchTerm := some ""
          answer := some resp.content }, 0⟩ ∧
    runTurn env cache st q =
      ⟨cache, .ok
        { st with
          question := q
          searchTerm := some ""
          context := some docs
          answer := some resp2.content }, 0, 0⟩ := by
  have hsearch : searchStep env { st with question := q } =
      .ok { st with
        question := q
        searchTerm := some ""
        answer := some resp.content } :=
    searchStep_no_tool env { st with question := q } resp hllm hno
  constructor
  · rfl
  · have hfetch : fetchWikiStep env
        { st with
          question := q
          searchTerm := some ""
          answer := some resp.content } =
        ⟨.ok
          { st with
            question := q
            searchTerm := some ""
            answer := some resp.content }, 0⟩ := rfl
    have hretr : retrieveStep env cache
        { st with
          question := q
          searchTerm := some ""
          answer := some resp.content } =
        ⟨cache, .ok
          { st with
            question := q
            searchTerm := some ""
            answer := some resp.content
            context := some docs }, 0⟩ := by
      simp only [retrieveStep, hcontent, hhit, hsim]
    have hgenstep : generateStep env
        { st with
          question := q
          searchTerm := some ""
          answer := some resp.content
          context := some docs } =
        .ok
          { st with
            question := q
            searchTerm := some ""
            context := some docs
            answer := some resp2.content } := by
      simp only [generateStep, hgen, except_bind_ok]
      rfl
    simp only [runTurn, hsearch, hfetch, hretr, hgenstep]

/-- C4 witness: the second turn of envA on q2 from stateA, whose cache
already holds the index of the carried content: the model answers
without a tool call, the fetcher is not invoked, and the turn ends with
the regenerated answer. -/
theorem c4_empty_search_term_skips_fetch_witness :
    fetchWikiStep envA
        { stateA with
          question := "q2"
          searchTerm := some ""
          answer := some "follow-ans" } =
      ⟨.ok
        { stateA with
          question := "q2"
          searchTerm := some ""
          answer := some "follow-ans" }, 0⟩ ∧
    runTurn envA [("page of T1", ⟨[⟨"page of T1"⟩]⟩)] stateA "q2" =
      ⟨[("page of T1", ⟨[⟨"page of T1"⟩]⟩)],
        .ok
          { stateA with
            question := "q2"
            searchTerm := some ""
            context := some []
            answer := some "gen-ans" }, 0, 0⟩ := by
  exact c4_empty_search_term_skips_fetch envA [("page of T1", ⟨[⟨"page of T1"⟩]⟩)]
    stateA "q2" ⟨"follow-ans", []⟩ ⟨"gen-ans", []⟩ "page of T1" ⟨[⟨"page of T1"⟩]⟩ []
    rfl rfl rfl rfl rfl rfl

/-! Claim C5. The Content Fetcher takes at most the first three titles
and concatenates their page texts in search-result order, independent
of the completion order of the parallel fetches. -/

/-- C5: for any completion order of the parallel page fetches (any
permutation of the task indices), the fetcher reads at most the first
MAX_SEARCH_RESULTS titles, and the result is the newline concatenation
of their page texts in search-result order, equal to the sequential
reading of the same titles. -/
theorem c5_fetch_order_and_limit (env : Env) (order : List Nat) (term : String)
    (results : List SearchResult) (pageText : String → String)
    (hs : env.search term = .ok results)
    (hp : ∀ t ∈ (results.take MAX_SEARCH_RESULTS).map (·.title),
      env.pageContent t = .ok (pageText t))
    (ho : order.Perm (List.range ((results.take MAX_SEARCH_RESULTS).map (·.title)).length)) :
    ((results.take MAX_SEARCH_RESULTS).map (·.title)).length ≤ MAX_SEARCH_RESULTS ∧
    getWikiPageContentSched env order term =
      .ok (String.intercalate "\n"
        (((results.take MAX_SEARCH_RESULTS).map (·.title)).map pageText)) ∧
    getWikiPageContentSched env order term = getWikiPageContent env term := by
  have hmap : ((results.take MAX_SEARCH_RESULTS).map (·.title)).map env.pageContent =
      (((results.take MAX_SEARCH_RESULTS).map (·.title)).map pageText).map Except.ok := by
    conv_rhs => rw [List.map_map]
    exact List.map_congr_left hp
  have hperm : order.Perm
      (List.range (((results.take MAX_SEARCH_RESULTS).map (·.title)).map pageText).length) := by
    rw [List.length_map]
    exact ho
  have hsched : getWikiPageContentSched env order term =
      .ok (String.intercalate "\n"
        (((results.take MAX_SEARCH_RESULTS).map (·.title)).map pageText)) := by
    unfold getWikiPageContentSched
    rw [hs]
    simp only [except_bind_ok]
    rw [hmap, promiseAll_perm_ok _ _ hperm]
    simp only [except_bind_ok]
    rfl
  have hcanon : getWikiPageContent env term =
      .ok (String.intercalate "\n"
        (((results.take MAX_SEARCH_RESULTS).map (·.title)).map pageText)) := by
    unfold getWikiPageContent
    rw [hs]
    simp only [except_bind_ok]
    rw [mapM_eq_ok _ _ _ hp]
    simp only [except_bind_ok]
    rfl
  refine ⟨?_, hsched, hsched.trans hcanon.symm⟩
  rw [List.length_map]
  exact List.length_take_le MAX_SEARCH_RESULTS results

/-- C5 witness: envB finds four results; the fetcher reads the first
three, and under the completion order 2, 0, 1 the result is still the
texts of A, B, C in search order, equal to the sequential reading. -/
theorem c5_fetch_order_and_limit_witness :
    getWikiPageContentSched envB [2, 0, 1] "x" = .ok "text A\ntext B\ntext C" ∧
    getWikiPageContentSched envB [2, 0, 1] "x" = getWikiPageContent envB "x" := by
  have h := c5_fetch_order_and_limit envB [2, 0, 1] "x" [⟨"A"⟩, ⟨"B"⟩, ⟨"C"⟩, ⟨"D"⟩]
    (fun t => "text " ++ t) rfl
    (by
      intro t ht
      have hl : (([⟨"A"⟩, ⟨"B"⟩, ⟨"C"⟩, ⟨"D"⟩] : List SearchResult).take
          MAX_SEARCH_RESULTS).map (·.title) = ["A", "B", "C"] := rfl
      rw [hl] at ht
      fin_cases ht <;> rfl)
    (by decide)
  exact ⟨h.2.1.trans (congrArg Except.ok (by decide)), h.2.2⟩

end WikiRag
